import Mathlib

/-!
Verification development for `bug_fixing_agent.py`: a shallow embedding of
the scenario-orchestration state machine, the guideline ledger, the coach
output parser and the scenario construction, together with proofs of the
specified properties.

Strings manipulated character by character are modelled as `List Char`
(Python `str` is a sequence of unicode code points); elsewhere Lean
`String` (a wrapper around `List Char`) is used.  External collaborators
(git, the test runner, the completion service) are modelled as oracle
functions supplied to the orchestrator.
-/

/-- Python whitespace (`str.isspace` / regex `\s`): ASCII whitespace,
file/group/record/unit separators, NEL, NBSP and the common unicode
spaces. -/
def pyIsSpace (c : Char) : Bool :=
  let n := c.toNat
  (decide (9 ≤ n) && decide (n ≤ 13)) || decide (n = 32) ||
  (decide (28 ≤ n) && decide (n ≤ 31)) || decide (n = 133) || decide (n = 160) ||
  decide (n = 0x1680) || (decide (0x2000 ≤ n) && decide (n ≤ 0x200a)) ||
  decide (n = 0x2028) || decide (n = 0x2029) || decide (n = 0x202f) ||
  decide (n = 0x205f) || decide (n = 0x3000)

/-- Python `str.strip()` over a character list. -/
def pyStripL (l : List Char) : List Char :=
  ((l.dropWhile pyIsSpace).reverse.dropWhile pyIsSpace).reverse

/-- Python `str.strip()` over a Lean `String`. -/
def pyStripS (s : String) : String := ⟨pyStripL s.data⟩

/-- Split a character list at every `'\n'` (Python `str.split("\n")`
semantics, which is also how `^`/`$` segment the text for a `re.MULTILINE`
regex): "a\nb" gives ["a", "b"], "" gives [""]. -/
def splitNL : List Char → List (List Char)
  | [] => [[]]
  | c :: rest =>
    if c = '\n' then [] :: splitNL rest
    else
      match splitNL rest with
      | [] => [[c]]
      | l :: ls => (c :: l) :: ls

/-- Python universal line-break characters recognised by `str.splitlines()`. -/
def pyIsLineBreak (c : Char) : Bool :=
  let n := c.toNat
  decide (n = 10) || decide (n = 13) || decide (n = 11) || decide (n = 12) ||
  decide (n = 28) || decide (n = 29) || decide (n = 30) || decide (n = 133) ||
  decide (n = 0x2028) || decide (n = 0x2029)

/-- Helper for `pySplitlinesL`: `acc` is the reversed current line. -/
def pySplitlinesAux (acc : List Char) : List Char → List (List Char)
  | [] => if acc.isEmpty then [] else [acc.reverse]
  | '\r' :: '\n' :: rest => acc.reverse :: pySplitlinesAux [] rest
  | c :: rest =>
    if pyIsLineBreak c then acc.reverse :: pySplitlinesAux [] rest
    else pySplitlinesAux (c :: acc) rest

/-- Python `str.splitlines()`: no trailing empty line, `"\r\n"` is a single
break. -/
def pySplitlinesL (l : List Char) : List (List Char) := pySplitlinesAux [] l

/-!  ## Guideline ledger (`Guidelines` in the source)

`Guidelines.save` writes a fixed two-line header (each header line followed
by a blank line) and then one `- <text>` bullet per item;
`Guidelines.load` collects the `re.findall(r"^- (.+)$", text, re.MULTILINE)`
groups, strips them and drops blanks. -/

/-- First text line of the header written by `Guidelines.save`. -/
def headerLine1 : List Char := "# Bug-Fixer Prompt Guidelines (evolving)".data

/-- Second text line of the header written by `Guidelines.save`. -/
def headerLine3 : List Char :=
  "These are generalized, non-specific lessons learned. Avoid revealing exact historical fixes.".data

/-- The fixed header written by `Guidelines.save` (two text lines, each
followed by an empty line). -/
def guidelinesHeader : List Char :=
  headerLine1 ++ '\n' :: '\n' :: (headerLine3 ++ '\n' :: '\n' :: [])

/-- `Guidelines.save`: header followed by one `- <text>\n` bullet per item. -/
def guidelinesSave (items : List (List Char)) : List Char :=
  guidelinesHeader ++ items.flatMap (fun it => '-' :: ' ' :: it ++ ['\n'])

/-- One line of `Guidelines.load`: the regex `^- (.+)$` demands the line be
`"- "` followed by at least one character; the captured group is stripped. -/
def guidelinesLineItem : List Char → Option (List Char)
  | '-' :: ' ' :: rest => if rest = [] then none else some (pyStripL rest)
  | _ => none

/-- `Guidelines.load`: parse the bullet lines of the persisted text,
dropping entries that are blank after stripping. -/
def guidelinesLoad (text : List Char) : List (List Char) :=
  ((splitNL text).filterMap guidelinesLineItem).filter (fun b => b ≠ [])

/-- The ledger merge performed by the orchestrator (lines 557-561):
append each new guideline not already present, by exact string match. -/
def mergeGuidelines (items ng : List String) : List String :=
  ng.foldl (fun m g => if g ∈ m then m else m ++ [g]) items

/-- The in-memory items together with the persisted file contents. -/
structure LedgerSt where
  items : List String
  file : List String
deriving DecidableEq

/-- One orchestrator ledger mutation: merge then immediately persist
(`self.guidelines.save()` is the statement right after the merge). -/
def mergeAndSave (st : LedgerSt) (ng : List String) : LedgerSt :=
  let m := mergeGuidelines st.items ng
  ⟨m, m⟩

/-- A whole run's sequence of merges. -/
def mergeSeq (items : List String) (batches : List (List String)) : List String :=
  batches.foldl mergeGuidelines items

/-!  ## Coach output parsing (`PromptRefinerAgent.refine`, lines 400-422)

`json.loads` is an external library call, modelled as an oracle
`jp : String → Option (List (Option String))`: `some arr` when it returns a
Python list (with `some s` for the `str` elements and `none` for elements
of any other type, which the source skips), `none` when it raises or
returns a non-list value (both flow to the bullet fallback). -/

/-- The structured branch's cleaning loop: keep stripped, non-blank,
not-yet-seen strings, then cap at 4. -/
def cleanJsonItems (arr : List (Option String)) : List String :=
  (arr.foldl
    (fun cleaned it =>
      match it with
      | none => cleaned
      | some s0 =>
        let s := pyStripS s0
        if s ≠ "" ∧ s ∉ cleaned then cleaned ++ [s] else cleaned)
    []).take 4

/-- One line of the bullet fallback: `re.match(r"^\s*[-*]\s+(.*)$", line)`,
whose stripped group is the candidate guideline. -/
def bulletLineMatch (l : List Char) : Option (List Char) :=
  match l.dropWhile pyIsSpace with
  | c :: rest =>
    if c = '-' ∨ c = '*' then
      match rest with
      | c2 :: _ => if pyIsSpace c2 then some (pyStripL rest) else none
      | [] => none
    else none
  | [] => none

/-- The bullet fallback over all lines of the response. -/
def bulletFallback (out : List Char) : List String :=
  ((pySplitlinesL out).foldl
    (fun gs l =>
      match bulletLineMatch l with
      | some g0 =>
        let g : String := ⟨g0⟩
        if g ≠ "" ∧ g ∉ gs then gs ++ [g] else gs
      | none => gs)
    []).take 4

/-- `PromptRefinerAgent.refine`'s parsing of the completion-service
response: strip, try the JSON-array route, otherwise fall back to
bullet-prefixed lines; both routes cap at 4 entries. -/
def refineParse (jp : String → Option (List (Option String))) (out0 : String) :
    List String :=
  let out := pyStripS out0
  match jp out with
  | some arr => cleanJsonItems arr
  | none => bulletFallback out.data

/-!  ## Diff-shape validation (lines 513-514 / 587-588)

`re.search(r"^\s*diff\s+--git\s", p, re.M)` and
`re.search(r"^\s*---\s", p, re.M)`.  `^` with `re.MULTILINE` anchors at the
string start or right after a `'\n'`; greedy `\s*`/`\s+` are equivalent to
maximal munch here because the following literal characters are
non-whitespace. -/

/-- All suffixes of the text beginning just after a `'\n'`. -/
def afterNewlines : List Char → List (List Char)
  | [] => []
  | c :: rest =>
    if c = '\n' then rest :: afterNewlines rest else afterNewlines rest

/-- The suffixes at which `^` can match under `re.MULTILINE`. -/
def lineStartSuffixes (l : List Char) : List (List Char) := l :: afterNewlines l

/-- Match `\s*diff\s+--git\s` at a line start. -/
def matchDiffGitAt (l : List Char) : Bool :=
  match l.dropWhile pyIsSpace with
  | 'd' :: 'i' :: 'f' :: 'f' :: c :: rest =>
    pyIsSpace c &&
      (match (c :: rest).dropWhile pyIsSpace with
       | '-' :: '-' :: 'g' :: 'i' :: 't' :: c2 :: _ => pyIsSpace c2
       | _ => false)
  | _ => false

/-- Match `\s*---\s` at a line start. -/
def matchDashesAt (l : List Char) : Bool :=
  match l.dropWhile pyIsSpace with
  | '-' :: '-' :: '-' :: c :: _ => pyIsSpace c
  | _ => false

/-- `looks_like_diff` (lines 513-514): the proposal contains a
`diff --git` marker or a `---` hunk-header line. -/
def looksLikeDiffL (l : List Char) : Bool :=
  (lineStartSuffixes l).any (fun t => matchDiffGitAt t || matchDashesAt t)

/-- `looks_like_diff` over a Lean `String`. -/
def looksLikeDiffS (s : String) : Bool := looksLikeDiffL s.data

/-- The placeholder returned by `ClaudeClient.complete` when the anthropic
SDK or the API key is missing (line 234). -/
def anthropicMissingPlaceholder : String :=
  "/* ERROR: anthropic not installed or API key missing. */"

/-- `count_diff_lines` (lines 183-187): counts of added and removed lines
of a unified diff. -/
def count_diff_lines (s : String) : Nat × Nat :=
  let lines := pySplitlinesL s.data
  (lines.countP (fun l => decide (l.take 1 = ['+']) && !decide (l.take 3 = ['+', '+', '+'])),
   lines.countP (fun l => decide (l.take 1 = ['-']) && !decide (l.take 3 = ['-', '-', '-'])))

/-!  ## Scenario construction (`detect_bug_fix_commits`, `build_scenarios`)

`git log --pretty=format:%H|%s|%P` output is the oracle input; the
filtering by grep terms happens inside git itself. -/

/-- Python `s.split(sep, maxsplit)` over a character list, structural on
the maxsplit budget. -/
def pySplitLimit (sep : Char) : Nat → List Char → List (List Char)
  | 0, l => [l]
  | n + 1, l =>
    if decide (sep ∈ l) then
      l.takeWhile (fun c => !decide (c = sep)) ::
        pySplitLimit sep n ((l.dropWhile (fun c => !decide (c = sep))).drop 1)
    else [l]

/-- Parse one `%H|%s|%P` line (lines 144-147): strip, skip blanks, split on
`'|'` with maxsplit 2 into hash, subject and parents (a line with fewer
than two separators cannot bind the three fields and yields nothing). -/
def parseLogLine (line0 : List Char) : Option (List Char × List Char × List Char) :=
  let line := pyStripL line0
  if line = [] then none
  else
    match pySplitLimit '|' 2 line ++ [[]] with
    | c :: s :: p :: _ => some (c, s, p)
    | _ => none

/-- `parents.split(" ")[0] if parents else ""` (line 149): the first
space-separated token of the `%P` field. -/
def firstParentTok (parents : List Char) : List Char :=
  if parents = [] then [] else parents.takeWhile (fun c => !decide (c = ' '))

/-- `detect_bug_fix_commits` (lines 142-152) applied to the raw git log
output: the `(buggy_parent, fix_commit, subject)` pairs, keeping only lines
whose first parent is non-empty. -/
def detect_bug_fix_commits (out : String) : List (String × String × String) :=
  (pySplitlinesL out.data).filterMap (fun line =>
    match parseLogLine line with
    | none => none
    | some (c, s, p) =>
      let parent := firstParentTok p
      if parent = [] then none else some (⟨parent⟩, ⟨c⟩, ⟨s⟩))

/-- `BugScenario` (lines 280-286). -/
structure BugScenario where
  parent_commit : String
  fix_commit : String
  subject : String
  files_changed : List String
  human_diff : String
deriving DecidableEq

/-- `build_scenarios` (lines 624-632); the `git diff` calls are external
and supplied as oracles from the two commit references. -/
def build_scenarios (gitOut : String) (filesOracle : String → String → List String)
    (diffOracle : String → String → String) : List BugScenario :=
  (detect_bug_fix_commits gitOut).map (fun t =>
    ⟨t.1, t.2.1, t.2.2, filesOracle t.1 t.2.1, diffOracle t.1 t.2.1⟩)

/-!  ## Orchestration (`Orchestrator.loop_over_bug_scenarios`, lines 478-618)

The external collaborators are an oracle `Env`, each indexed by how many
times that collaborator has been invoked so far within the scenario:
`checkoutOK` for `git_checkout_detached`, `testPass` for `run_tests`,
`proposeResp` for `BugFixerAgent.propose_patch` (the raw completion text),
`approve` for the interactive approval prompt, `applyOK` for
`apply_unified_diff_with_git` and `coachGuides` for the already-parsed
result of `PromptRefinerAgent.refine`.

Side effects are recorded as an `Event` trace (in execution order) and the
per-scenario `log_buf` as a list of abstract `LogEntry` values. -/

/-- Invocation counters for each external collaborator. -/
structure Ctr where
  co : Nat
  te : Nat
  pr : Nat
  ap : Nat
  agit : Nat
  ch : Nat
deriving DecidableEq

/-- The oracle for all external collaborators. -/
structure Env where
  checkoutOK : Nat → Bool
  testPass : Nat → Bool
  proposeResp : Nat → String
  approve : Nat → Bool
  applyOK : Nat → Bool
  coachGuides : Nat → List String

/-- The configuration fields the orchestration loop reads. -/
structure Cfg where
  maxAttempts : Nat
  maxRefines : Nat
  requireApproval : Bool
deriving DecidableEq

/-- Externally visible actions, in execution order.  `reset` is one
`ensure_clean_worktree` call (git reset --hard plus git clean);
`checkout` is the `git checkout -f` that `git_checkout_detached` performs
after its own reset; `save` is `Guidelines.save`; `flushLog` is
`write_log` with the file name it uses. -/
inductive Event where
  | reset
  | checkout (ok : Bool)
  | runTests (passed : Bool)
  | propose
  | applyPatch (ok : Bool)
  | coachCall
  | save
  | flushLog (name : String)
deriving DecidableEq

/-- Abstract entries of the in-memory `log_buf`. -/
inductive LogEntry where
  | header
  | baselineOutput
  | attemptPatch (n : Nat) (patch : String)
  | attemptOutput (n : Nat)
  | successMark (n : Nat) (added removed : Nat)
  | refineNone (r : Nat)
  | refineGuides (r : Nat) (gs : List String)
  | anomalousBaseline
  | postAttemptPatch (r n : Nat) (patch : String)
  | postAttemptOutput (r n : Nat)
  | postSuccessMark (r n : Nat) (added removed : Nat)
  | failedMark
deriving DecidableEq

/-- The orchestrator's per-scenario mutable state: collaborator counters,
the event trace so far, `log_buf`, the guideline items, the persisted
guideline file contents and `last_agent_diff`. -/
structure St where
  ctr : Ctr
  evs : List Event
  logBuf : List LogEntry
  items : List String
  file : List String
  lastDiff : String

/-- `run_tests` (line 449). -/
def runTestsOp (env : Env) (st : St) : Bool × St :=
  let p := env.testPass st.ctr.te
  (p, { st with
        ctr := { st.ctr with te := st.ctr.te + 1 },
        evs := st.evs ++ [Event.runTests p] })

/-- `git_checkout_detached` (lines 108-114): reset/clean, then checkout. -/
def checkoutOp (env : Env) (st : St) : Bool × St :=
  let ok := env.checkoutOK st.ctr.co
  (ok, { st with
         ctr := { st.ctr with co := st.ctr.co + 1 },
         evs := st.evs ++ [Event.reset, Event.checkout ok] })

/-- `propose_patch` followed by `.strip()` (lines 510/586). -/
def proposeOp (env : Env) (st : St) : String × St :=
  let p := pyStripS (env.proposeResp st.ctr.pr)
  (p, { st with
        ctr := { st.ctr with pr := st.ctr.pr + 1 },
        evs := st.evs ++ [Event.propose] })

/-- `Orchestrator.approval` (lines 440-446): immediately true when
approval is not required. -/
def approvalOp (cfg : Cfg) (env : Env) (st : St) : Bool × St :=
  (if cfg.requireApproval then env.approve st.ctr.ap else true,
   { st with ctr := { st.ctr with ap := st.ctr.ap + 1 } })

/-- `ensure_clean_worktree` then `apply_unified_diff_with_git`
(lines 524-525 / 597-598). -/
def applyOp (env : Env) (st : St) : Bool × St :=
  let ok := env.applyOK st.ctr.agit
  (ok, { st with
         ctr := { st.ctr with agit := st.ctr.agit + 1 },
         evs := st.evs ++ [Event.reset, Event.applyPatch ok] })

/-- `PromptRefinerAgent.refine` invocation (line 551). -/
def coachOp (env : Env) (st : St) : List String × St :=
  (env.coachGuides st.ctr.ch,
   { st with
     ctr := { st.ctr with ch := st.ctr.ch + 1 },
     evs := st.evs ++ [Event.coachCall] })

/-- Log entry for a proposed patch: initial loop or post-refine round. -/
def patchEntry (tag : Option Nat) (n : Nat) (p : String) : LogEntry :=
  match tag with
  | none => LogEntry.attemptPatch n p
  | some r => LogEntry.postAttemptPatch r n p

/-- Log entry for a post-apply test output. -/
def outputEntry (tag : Option Nat) (n : Nat) : LogEntry :=
  match tag with
  | none => LogEntry.attemptOutput n
  | some r => LogEntry.postAttemptOutput r n

/-- Log entry for a success, with the diff size metrics. -/
def successEntry (tag : Option Nat) (n : Nat) (p : String) : LogEntry :=
  match tag with
  | none => LogEntry.successMark n (count_diff_lines p).1 (count_diff_lines p).2
  | some r => LogEntry.postSuccessMark r n (count_diff_lines p).1 (count_diff_lines p).2

/-- One attempt of the inner fix loop (lines 507-541 and 584-610): propose,
validate diff shape, approval gate, reset-then-apply, re-run tests.  The
patch and test-output log entries are appended only after a clean apply. -/
def attemptStep (cfg : Cfg) (env : Env) (tag : Option Nat) (n : Nat) (st : St) :
    Bool × St :=
  let pr := proposeOp env st
  let p := pr.1
  let st1 : St := { pr.2 with lastDiff := p }
  if looksLikeDiffS p then
    let ap := approvalOp cfg env st1
    if ap.1 then
      let ag := applyOp env ap.2
      if ag.1 then
        let tr := runTestsOp env ag.2
        let st4 : St :=
          { tr.2 with logBuf := tr.2.logBuf ++ [patchEntry tag n p, outputEntry tag n] }
        if tr.1 then (true, { st4 with logBuf := st4.logBuf ++ [successEntry tag n p] })
        else (false, st4)
      else (false, ag.2)
    else (false, ap.2)
  else (false, st1)

/-- The inner fix loop: `k` remaining attempts, `n` the 1-based ordinal of
the next attempt. -/
def attemptLoop (cfg : Cfg) (env : Env) (tag : Option Nat) :
    Nat → Nat → St → Bool × St
  | 0, _, st => (false, st)
  | Nat.succ k, n, st =>
    let r := attemptStep cfg env tag n st
    if r.1 then (true, r.2) else attemptLoop cfg env tag k (n + 1) r.2

/-- How one refinement round exits. -/
inductive RoundRes where
  | success
  | broke
  | cont
deriving DecidableEq

/-- One refinement round (lines 549-613): coach, merge-and-save when the
coach returned guidelines, re-checkout the buggy parent (break on
failure), baseline re-run (break as anomalous when it passes), else a
fresh inner fix loop. -/
def refineRound (cfg : Cfg) (env : Env) (r : Nat) (st : St) : RoundRes × St :=
  let cg := coachOp env st
  let st1 : St :=
    if cg.1 = [] then { cg.2 with logBuf := cg.2.logBuf ++ [LogEntry.refineNone r] }
    else
      let merged := mergeGuidelines cg.2.items cg.1
      { cg.2 with
        items := merged, file := merged,
        evs := cg.2.evs ++ [Event.save],
        logBuf := cg.2.logBuf ++ [LogEntry.refineGuides r cg.1] }
  let co := checkoutOp env st1
  if co.1 then
    let tr := runTestsOp env co.2
    if tr.1 then
      (RoundRes.broke, { tr.2 with logBuf := tr.2.logBuf ++ [LogEntry.anomalousBaseline] })
    else
      let st2 : St := { tr.2 with lastDiff := "" }
      let al := attemptLoop cfg env (some r) cfg.maxAttempts 1 st2
      if al.1 then (RoundRes.success, al.2) else (RoundRes.cont, al.2)
  else (RoundRes.broke, co.2)

/-- The refinement loop: `k` remaining rounds, `r` the 1-based ordinal of
the next round; the boolean is `refine_success`. -/
def refineLoop (cfg : Cfg) (env : Env) : Nat → Nat → St → Bool × St
  | 0, _, st => (false, st)
  | Nat.succ k, r, st =>
    let rr := refineRound cfg env r st
    match rr.1 with
    | RoundRes.success => (true, rr.2)
    | RoundRes.broke => (false, rr.2)
    | RoundRes.cont => refineLoop cfg env k (r + 1) rr.2

/-- Terminal outcome of one scenario, per the design's taxonomy. -/
inductive Outcome where
  | fixed
  | fixedAfterRefinement
  | failed
  | skippedAlreadyPassing
  | skippedCheckoutError
deriving DecidableEq

/-- `write_log`'s file name (line 466): the two commit ids truncated to 10
characters. -/
def logName (sc : BugScenario) : String :=
  sc.parent_commit.take 10 ++ "_" ++ sc.fix_commit.take 10 ++ ".md"

/-- `write_log` (lines 465-467): flush the buffered log to storage. -/
def flushOp (sc : BugScenario) (st : St) : St :=
  { st with evs := st.evs ++ [Event.flushLog (logName sc)] }

/-- The state at scenario entry: `items0`/`file0` are the guideline items
in memory and on disk when the scenario starts. -/
def initSt (items0 file0 : List String) : St :=
  ⟨⟨0, 0, 0, 0, 0, 0⟩, [], [], items0, file0, ""⟩

/-- The body of `loop_over_bug_scenarios` for one scenario (lines
481-618): checkout the buggy parent (skip on failure, no log written),
baseline test (skip when it passes, no log written), the inner fix loop,
then the refinement loop, with the log flushed once at termination. -/
def processScenario (cfg : Cfg) (env : Env) (sc : BugScenario)
    (items0 file0 : List String) : Outcome × St :=
  let co := checkoutOp env (initSt items0 file0)
  if co.1 then
    let tr := runTestsOp env co.2
    if tr.1 then (Outcome.skippedAlreadyPassing, tr.2)
    else
      let st1 : St := { tr.2 with logBuf := [LogEntry.header, LogEntry.baselineOutput] }
      let al := attemptLoop cfg env none cfg.maxAttempts 1 st1
      if al.1 then (Outcome.fixed, flushOp sc al.2)
      else
        let rl := refineLoop cfg env cfg.maxRefines 1 al.2
        if rl.1 then (Outcome.fixedAfterRefinement, flushOp sc rl.2)
        else
          (Outcome.failed,
           flushOp sc { rl.2 with logBuf := rl.2.logBuf ++ [LogEntry.failedMark] })
  else (Outcome.skippedCheckoutError, co.2)

/-!  ## Trace and log observables used by the stated properties -/

/-- Is the event a patch application? -/
def isApplyEv : Event → Bool
  | Event.applyPatch _ => true
  | _ => false

/-- Is the event a proposer invocation? -/
def isProposeEv : Event → Bool
  | Event.propose => true
  | _ => false

/-- Is the event a coach invocation? -/
def isCoachEv : Event → Bool
  | Event.coachCall => true
  | _ => false

/-- Is the event a log flush? -/
def isFlushEv : Event → Bool
  | Event.flushLog _ => true
  | _ => false

/-- Scan a trace left to right; the flag records whether the previous
event was a worktree reset, and every patch application must see the flag
set.  `resetBeforeApply` starts with the flag clear. -/
def chkResetAux : Bool → List Event → Bool
  | _, [] => true
  | prev, e :: rest =>
    match e with
    | Event.applyPatch _ => prev && chkResetAux false rest
    | Event.reset => chkResetAux true rest
    | _ => chkResetAux false rest

/-- Every patch application in the trace is immediately preceded by a
worktree reset. -/
def resetBeforeApply (l : List Event) : Bool := chkResetAux false l

/-- The first event of the trace that is a proposer or coach call, if any,
comes after the first test run. -/
def testsBeforeProposal : List Event → Bool
  | [] => true
  | e :: rest =>
    match e with
    | Event.runTests _ => true
    | Event.propose => false
    | Event.coachCall => false
    | _ => testsBeforeProposal rest

/-- Is the log entry a success marker (`Fixed` or `FixedAfterRefinement`
evidence)? -/
def isSuccessEntry : LogEntry → Bool
  | LogEntry.successMark _ _ _ => true
  | LogEntry.postSuccessMark _ _ _ _ => true
  | _ => false

/-- The trace chunk does not begin with a patch application (used to
compose `resetBeforeApply` across appended chunks). -/
def headNotApplyB : List Event → Bool
  | Event.applyPatch _ :: _ => false
  | _ => true

/-!  ## Witness fixtures: concrete oracles and inputs -/

/-- A tiny concrete scenario. -/
def scW : BugScenario :=
  ⟨"aaaaaaaaaaaa", "bbbbbbbbbbbb", "fix: demo", [], ""⟩

/-- Oracle where checkouts succeed and every test run fails; the proposer
returns an empty (non-diff) response and the coach returns nothing. -/
def envAllFailW : Env :=
  ⟨fun _ => true, fun _ => false, fun _ => "", fun _ => true, fun _ => true,
   fun _ => []⟩

/-- Oracle where the very first checkout fails. -/
def envCheckoutFailW : Env :=
  ⟨fun _ => false, fun _ => false, fun _ => "", fun _ => true, fun _ => true,
   fun _ => []⟩

/-- Oracle where the baseline test run passes immediately. -/
def envBaselinePassW : Env :=
  ⟨fun _ => true, fun _ => true, fun _ => "", fun _ => true, fun _ => true,
   fun _ => []⟩

/-- Oracle driving the run into the anomalous-baseline path: the baseline
(test run 0) fails, the refinement-round baseline (test run 1) passes. -/
def envAnomalousW : Env :=
  ⟨fun _ => true, fun n => decide (n = 1), fun _ => "", fun _ => true,
   fun _ => true, fun _ => []⟩

/-- Oracle whose proposer always returns the credentials-missing
placeholder text. -/
def envPlaceholderW : Env :=
  ⟨fun _ => true, fun _ => false, fun _ => anthropicMissingPlaceholder,
   fun _ => true, fun _ => true, fun _ => []⟩

/-!  # Lemmas and theorems -/

/-!  ## Ledger merge (claim C4) -/

theorem mergeGuidelines_cons (m : List String) (g : String) (t : List String) :
    mergeGuidelines m (g :: t) =
      mergeGuidelines (if g ∈ m then m else m ++ [g]) t := by
  simp only [mergeGuidelines, List.foldl_cons]

theorem mergeGuidelines_nodup (ng : List String) :
    ∀ m : List String, m.Nodup → (mergeGuidelines m ng).Nodup := by
  induction ng with
  | nil => intro m h; simpa [mergeGuidelines] using h
  | cons g t ih =>
    intro m h
    rw [mergeGuidelines_cons]
    by_cases hg : g ∈ m
    · simpa [hg] using ih m h
    · have : (m ++ [g]).Nodup := by
        simp [List.nodup_append, h, hg]
      simpa [hg] using ih (m ++ [g]) this

theorem mergeGuidelines_isPrefix (ng : List String) :
    ∀ m : List String, m <+: mergeGuidelines m ng := by
  induction ng with
  | nil => intro m; simp [mergeGuidelines]
  | cons g t ih =>
    intro m
    rw [mergeGuidelines_cons]
    by_cases hg : g ∈ m
    · simpa [hg] using ih m
    · have h1 : m <+: m ++ [g] := List.prefix_append m [g]
      have h2 := ih (m ++ [g])
      simpa [hg] using h1.trans h2

theorem mergeSeq_nodup (batches : List (List String)) :
    ∀ items : List String, items.Nodup → (mergeSeq items batches).Nodup := by
  induction batches with
  | nil => intro items h; simpa [mergeSeq] using h
  | cons b t ih =>
    intro items h
    simpa [mergeSeq, List.foldl_cons] using
      ih (mergeGuidelines items b) (mergeGuidelines_nodup b items h)

theorem mergeSeq_isPrefix (batches : List (List String)) :
    ∀ items : List String, items <+: mergeSeq items batches := by
  induction batches with
  | nil => intro items; simp [mergeSeq]
  | cons b t ih =>
    intro items
    have h1 := mergeGuidelines_isPrefix b items
    have h2 := ih (mergeGuidelines items b)
    simpa [mergeSeq, List.foldl_cons] using h1.trans h2

theorem attemptStep_items (cfg : Cfg) (env : Env) (tag : Option Nat)
    (n : Nat) (st : St) :
    (attemptStep cfg env tag n st).2.items = st.items := by
  unfold attemptStep proposeOp approvalOp applyOp runTestsOp
  dsimp only
  split_ifs <;> simp

theorem attemptStep_file (cfg : Cfg) (env : Env) (tag : Option Nat)
    (n : Nat) (st : St) :
    (attemptStep cfg env tag n st).2.file = st.file := by
  unfold attemptStep proposeOp approvalOp applyOp runTestsOp
  dsimp only
  split_ifs <;> simp

theorem attemptLoop_items (cfg : Cfg) (env : Env) (tag : Option Nat) :
    ∀ (k n : Nat) (st : St),
      (attemptLoop cfg env tag k n st).2.items = st.items := by
  intro k
  induction k with
  | zero => intro n st; simp [attemptLoop]
  | succ k ih =>
    intro n st
    simp only [attemptLoop]
    split
    · exact attemptStep_items cfg env tag n st
    · exact (ih (n + 1) (attemptStep cfg env tag n st).2).trans
        (attemptStep_items cfg env tag n st)

theorem attemptLoop_file (cfg : Cfg) (env : Env) (tag : Option Nat) :
    ∀ (k n : Nat) (st : St),
      (attemptLoop cfg env tag k n st).2.file = st.file := by
  intro k
  induction k with
  | zero => intro n st; simp [attemptLoop]
  | succ k ih =>
    intro n st
    simp only [attemptLoop]
    split
    · exact attemptStep_file cfg env tag n st
    · exact (ih (n + 1) (attemptStep cfg env tag n st).2).trans
        (attemptStep_file cfg env tag n st)

theorem refineRound_sync (cfg : Cfg) (env : Env) (r : Nat) (st : St)
    (h : st.file = st.items) :
    (refineRound cfg env r st).2.file = (refineRound cfg env r st).2.items := by
  unfold refineRound coachOp checkoutOp runTestsOp
  dsimp only
  split_ifs <;> simp [h, attemptLoop_items, attemptLoop_file]

theorem refineLoop_sync (cfg : Cfg) (env : Env) :
    ∀ (k r : Nat) (st : St), st.file = st.items →
      (refineLoop cfg env k r st).2.file = (refineLoop cfg env k r st).2.items := by
  intro k
  induction k with
  | zero => intro r st h; simpa [refineLoop] using h
  | succ k ih =>
    intro r st h
    simp only [refineLoop]
    split
    · exact refineRound_sync cfg env r st h
    · exact refineRound_sync cfg env r st h
    · exact ih (r + 1) (refineRound cfg env r st).2 (refineRound_sync cfg env r st h)

theorem processScenario_sync (cfg : Cfg) (env : Env) (sc : BugScenario)
    (i0 : List String) :
    (processScenario cfg env sc i0 i0).2.file =
      (processScenario cfg env sc i0 i0).2.items := by
  unfold processScenario checkoutOp runTestsOp flushOp initSt
  dsimp only
  split_ifs <;>
    simp [attemptLoop_items, attemptLoop_file, refineLoop_sync, initSt]

/-- C4: starting from a ledger with pairwise-distinct items, any sequence
of merge operations keeps the items pairwise distinct and keeps the
original items as a prefix in their original order; each merge-and-save
mutation leaves the persisted file equal to the in-memory items, and a
scenario run started with a synchronised ledger ends with the persisted
file equal to the in-memory items. -/
theorem merge_ledger_invariants (items0 : List String)
    (batches : List (List String)) (h : items0.Nodup) :
    (mergeSeq items0 batches).Nodup ∧ items0 <+: mergeSeq items0 batches ∧
      (∀ (st : LedgerSt) (ng : List String),
        (mergeAndSave st ng).file = (mergeAndSave st ng).items) ∧
      (∀ (cfg : Cfg) (env : Env) (sc : BugScenario) (i0 : List String),
        (processScenario cfg env sc i0 i0).2.file =
          (processScenario cfg env sc i0 i0).2.items) :=
  ⟨mergeSeq_nodup batches items0 h, mergeSeq_isPrefix batches items0,
   fun _ _ => rfl, processScenario_sync⟩

/-- Witness for C4 at a concrete distinct ledger and one merge batch. -/
theorem merge_ledger_invariants_witness :
    (mergeSeq ["a", "b"] [["b", "c"]]).Nodup ∧
      ["a", "b"] <+: mergeSeq ["a", "b"] [["b", "c"]] ∧
      (∀ (st : LedgerSt) (ng : List String),
        (mergeAndSave st ng).file = (mergeAndSave st ng).items) ∧
      (∀ (cfg : Cfg) (env : Env) (sc : BugScenario) (i0 : List String),
        (processScenario cfg env sc i0 i0).2.file =
          (processScenario cfg env sc i0 i0).2.items) :=
  merge_ledger_invariants ["a", "b"] [["b", "c"]] (by decide)

/-!  ## Ledger persistence round-trip (claim C5) -/

theorem splitNL_cons_newline (rest : List Char) :
    splitNL ('\n' :: rest) = [] :: splitNL rest := by
  simp [splitNL]

theorem splitNL_line (l : List Char) (rest : List Char) (h : '\n' ∉ l) :
    splitNL (l ++ '\n' :: rest) = l :: splitNL rest := by
  induction l with
  | nil => simp [splitNL]
  | cons c t ih =>
    have hc : ¬(c = '\n') := fun hc => h (by simp [hc])
    have ht : '\n' ∉ t := fun hm => h (List.mem_cons_of_mem c hm)
    rw [List.cons_append]
    simp only [splitNL]
    rw [if_neg hc, ih ht]

theorem splitNL_bullets (items : List (List Char))
    (h : ∀ it ∈ items, '\n' ∉ it) :
    splitNL (items.flatMap (fun it => '-' :: ' ' :: it ++ ['\n'])) =
      items.map (fun it => '-' :: ' ' :: it) ++ [[]] := by
  induction items with
  | nil => simp [splitNL]
  | cons it t ih =>
    have hit := h it (List.mem_cons_self it t)
    have h1 : '\n' ∉ '-' :: ' ' :: it := by
      simp +decide [List.mem_cons, hit]
    have ht : ∀ x ∈ t, '\n' ∉ x := fun x hx => h x (List.mem_cons_of_mem it hx)
    have hre : (it :: t).flatMap (fun x => '-' :: ' ' :: x ++ ['\n']) =
        ('-' :: ' ' :: it) ++
          '\n' :: t.flatMap (fun x => '-' :: ' ' :: x ++ ['\n']) := by
      simp
    rw [hre, splitNL_line ('-' :: ' ' :: it) _ h1, ih ht]
    simp

theorem splitNL_header (rest : List Char) :
    splitNL (guidelinesHeader ++ rest) =
      headerLine1 :: [] :: headerLine3 :: [] :: splitNL rest := by
  have h1 : '\n' ∉ headerLine1 := by decide
  have h3 : '\n' ∉ headerLine3 := by decide
  unfold guidelinesHeader
  simp only [List.append_assoc, List.cons_append, List.nil_append]
  rw [splitNL_line headerLine1 _ h1, splitNL_cons_newline,
    splitNL_line headerLine3 _ h3, splitNL_cons_newline]

theorem filterMap_bullet (items : List (List Char))
    (h : ∀ it ∈ items, it ≠ [] ∧ pyStripL it = it) :
    (items.map (fun it => '-' :: ' ' :: it)).filterMap guidelinesLineItem =
      items := by
  induction items with
  | nil => simp
  | cons it t ih =>
    have h1 := h it (List.mem_cons_self it t)
    have e : guidelinesLineItem ('-' :: ' ' :: it) = some it := by
      simp only [guidelinesLineItem]
      rw [if_neg h1.1, h1.2]
    simp only [List.map_cons, List.filterMap_cons, e]
    rw [ih (fun x hx => h x (List.mem_cons_of_mem it hx))]

/-- C5 (amended): persisting and re-loading the ledger reproduces exactly
the same ordered sequence of guideline strings, provided every item is
non-empty, contains no newline and carries no leading or trailing
whitespace. -/
theorem guidelines_save_load_roundtrip (items : List (List Char))
    (h : ∀ it ∈ items, it ≠ [] ∧ '\n' ∉ it ∧ pyStripL it = it) :
    guidelinesLoad (guidelinesSave items) = items := by
  have hnl : ∀ it ∈ items, '\n' ∉ it := fun it hm => (h it hm).2.1
  have hsp : ∀ it ∈ items, it ≠ [] ∧ pyStripL it = it :=
    fun it hm => ⟨(h it hm).1, (h it hm).2.2⟩
  unfold guidelinesLoad guidelinesSave
  rw [splitNL_header, splitNL_bullets items hnl]
  have e1 : guidelinesLineItem headerLine1 = none := by decide
  have e3 : guidelinesLineItem headerLine3 = none := by decide
  simp only [List.filterMap_cons, e1, e3, List.filterMap_append,
    filterMap_bullet items hsp]
  have enil : guidelinesLineItem [] = none := rfl
  simp only [enil, List.filterMap_cons, List.filterMap_nil, List.append_nil]
  rw [List.filter_eq_self]
  intro a ha
  simpa using (h a ha).1

/-- Witness for the amended C5 at a concrete two-item ledger. -/
theorem guidelines_save_load_roundtrip_witness :
    guidelinesLoad (guidelinesSave ["alpha".data, "beta two".data]) =
      ["alpha".data, "beta two".data] :=
  guidelines_save_load_roundtrip ["alpha".data, "beta two".data] (by decide)

/-- C5 counterexample: the claim quantifies over every ledger state, but an
item containing a newline (reachable, e.g. parsed from a JSON string with
an embedded newline) does not survive the save/load round-trip. -/
theorem guidelines_roundtrip_counterexample :
    guidelinesLoad (guidelinesSave [['a', '\n', 'b']]) ≠ [['a', '\n', 'b']] := by
  decide

/-!  ## Coach output parsing (claim C8) -/

theorem cleanJson_fold_invariant (arr : List (Option String)) :
    ∀ acc : List String, acc.Nodup → "" ∉ acc →
      (arr.foldl
        (fun cleaned it =>
          match it with
          | none => cleaned
          | some s0 =>
            let s := pyStripS s0
            if s ≠ "" ∧ s ∉ cleaned then cleaned ++ [s] else cleaned)
        acc).Nodup ∧
      "" ∉ arr.foldl
        (fun cleaned it =>
          match it with
          | none => cleaned
          | some s0 =>
            let s := pyStripS s0
            if s ≠ "" ∧ s ∉ cleaned then cleaned ++ [s] else cleaned)
        acc := by
  induction arr with
  | nil => intro acc h1 h2; exact ⟨h1, h2⟩
  | cons a t ih =>
    intro acc h1 h2
    cases a with
    | none => simpa using ih acc h1 h2
    | some s0 =>
      by_cases hc : pyStripS s0 ≠ "" ∧ pyStripS s0 ∉ acc
      · have h1a : (acc ++ [pyStripS s0]).Nodup := by
          simp [List.nodup_append, h1, hc.2]
        have h2a : "" ∉ acc ++ [pyStripS s0] := by
          simp [h2]
          exact fun he => hc.1 he.symm
        simpa [hc] using ih (acc ++ [pyStripS s0]) h1a h2a
      · simpa [hc] using ih acc h1 h2

theorem bullet_fold_invariant (lines : List (List Char)) :
    ∀ acc : List String, acc.Nodup → "" ∉ acc →
      (lines.foldl
        (fun gs l =>
          match bulletLineMatch l with
          | some g0 =>
            let g : String := ⟨g0⟩
            if g ≠ "" ∧ g ∉ gs then gs ++ [g] else gs
          | none => gs)
        acc).Nodup ∧
      "" ∉ lines.foldl
        (fun gs l =>
          match bulletLineMatch l with
          | some g0 =>
            let g : String := ⟨g0⟩
            if g ≠ "" ∧ g ∉ gs then gs ++ [g] else gs
          | none => gs)
        acc := by
  induction lines with
  | nil => intro acc h1 h2; exact ⟨h1, h2⟩
  | cons a t ih =>
    intro acc h1 h2
    cases hb : bulletLineMatch a with
    | none => simpa [hb] using ih acc h1 h2
    | some g0 =>
      by_cases hc : (⟨g0⟩ : String) ≠ "" ∧ (⟨g0⟩ : String) ∉ acc
      · have h1a : (acc ++ [(⟨g0⟩ : String)]).Nodup := by
          simp [List.nodup_append, h1, hc.2]
        have h2a : "" ∉ acc ++ [(⟨g0⟩ : String)] := by
          simp [h2]
          exact fun he => hc.1 he.symm
        simpa [hb, hc] using ih (acc ++ [(⟨g0⟩ : String)]) h1a h2a
      · simpa [hb, hc] using ih acc h1 h2

/-- C8: for every completion-service response (and every behaviour of the
external JSON decoder), the coach's parsed result has at most 4 entries,
no duplicates and no blank string; the structured route is tried first and
the bullet fallback otherwise, each capping at 4. -/
theorem refineParse_props (jp : String → Option (List (Option String)))
    (out : String) :
    (refineParse jp out).length ≤ 4 ∧ (refineParse jp out).Nodup ∧
      "" ∉ refineParse jp out := by
  have key : ∀ l : List String, l.Nodup → "" ∉ l →
      (l.take 4).length ≤ 4 ∧ (l.take 4).Nodup ∧ "" ∉ l.take 4 := by
    intro l h1 h2
    refine ⟨?_, h1.sublist (List.take_sublist 4 l),
      fun hm => h2 (List.take_subset 4 l hm)⟩
    rw [List.length_take]
    exact min_le_left 4 l.length
  unfold refineParse
  dsimp only
  cases hjp : jp (pyStripS out) with
  | some arr =>
    simp only [hjp]
    have h := cleanJson_fold_invariant arr [] List.nodup_nil (by simp)
    exact key _ h.1 h.2
  | none =>
    simp only [hjp]
    unfold bulletFallback
    have h := bullet_fold_invariant (pySplitlinesL (pyStripS out).data) []
      List.nodup_nil (by simp)
    exact key _ h.1 h.2

/-- Witness for C8 on a bullet-fallback response with a failing JSON
decoder. -/
theorem refineParse_props_witness :
    (refineParse (fun _ => none) "- alpha\n- beta").length ≤ 4 ∧
      (refineParse (fun _ => none) "- alpha\n- beta").Nodup ∧
      "" ∉ refineParse (fun _ => none) "- alpha\n- beta" :=
  refineParse_props (fun _ => none) "- alpha\n- beta"

/-!  ## Scenario construction (claim C10) -/

theorem detect_bug_fix_commits_mem (out : String) (pr : String × String × String)
    (h : pr ∈ detect_bug_fix_commits out) :
    pr.1 ≠ "" ∧ ∃ line ∈ pySplitlinesL out.data, ∃ c s p,
      parseLogLine line = some (c, s, p) ∧ pr.2.1 = (⟨c⟩ : String) ∧
        pr.1 = (⟨firstParentTok p⟩ : String) ∧ firstParentTok p ≠ [] := by
  unfold detect_bug_fix_commits at h
  rw [List.mem_filterMap] at h
  obtain ⟨line, hline, hsome⟩ := h
  cases hp : parseLogLine line with
  | none => rw [hp] at hsome; simp at hsome
  | some t =>
    obtain ⟨c, s, p⟩ := t
    rw [hp] at hsome
    by_cases hpar : firstParentTok p = []
    · simp [hpar] at hsome
    · simp only [hpar, if_false, if_neg hpar, Option.some_inj] at hsome
      refine ⟨?_, line, hline, c, s, p, hp, ?_, ?_, hpar⟩
      · rw [← hsome]
        intro he
        exact hpar (congrArg String.data he)
      · rw [← hsome]
      · rw [← hsome]

/-- C10: every scenario produced by `build_scenarios` has a non-empty
buggy-parent reference equal to the first space-separated token of the
`%P` (parents) field of the log line of its fix commit; root commits
(empty `%P`) are excluded. -/
theorem build_scenarios_parent_nonempty (gitOut : String)
    (filesOracle : String → String → List String)
    (diffOracle : String → String → String) (sc : BugScenario)
    (h : sc ∈ build_scenarios gitOut filesOracle diffOracle) :
    sc.parent_commit ≠ "" ∧ ∃ line ∈ pySplitlinesL gitOut.data, ∃ c s p,
      parseLogLine line = some (c, s, p) ∧ sc.fix_commit = (⟨c⟩ : String) ∧
        sc.parent_commit = (⟨firstParentTok p⟩ : String) ∧
        firstParentTok p ≠ [] := by
  unfold build_scenarios at h
  rw [List.mem_map] at h
  obtain ⟨pr, hpr, heq⟩ := h
  have hd := detect_bug_fix_commits_mem gitOut pr hpr
  subst heq
  exact hd

/-- Witness for C10 on a one-line git log output with two parents. -/
theorem build_scenarios_parent_nonempty_witness :
    (BugScenario.mk "par1" "abc123" "fix: thing" [] "").parent_commit ≠ "" ∧
      ∃ line ∈ pySplitlinesL ("abc123|fix: thing|par1 par2\n").data,
        ∃ c s p, parseLogLine line = some (c, s, p) ∧
          (BugScenario.mk "par1" "abc123" "fix: thing" [] "").fix_commit =
            (⟨c⟩ : String) ∧
          (BugScenario.mk "par1" "abc123" "fix: thing" [] "").parent_commit =
            (⟨firstParentTok p⟩ : String) ∧
          firstParentTok p ≠ [] :=
  build_scenarios_parent_nonempty "abc123|fix: thing|par1 par2\n"
    (fun _ _ => []) (fun _ _ => "")
    (BugScenario.mk "par1" "abc123" "fix: thing" [] "") (by decide)

/-!  ## Trace composition -/

theorem chkResetAux_of_headNotApply (l : List Event)
    (h : headNotApplyB l = true) (f : Bool) :
    chkResetAux f l = chkResetAux false l := by
  cases l with
  | nil => rfl
  | cons e rest => cases e <;> simp_all [headNotApplyB, chkResetAux]

theorem chkResetAux_append (l1 l2 : List Event) (f : Bool)
    (h1 : chkResetAux f l1 = true) (h2 : chkResetAux false l2 = true)
    (h3 : headNotApplyB l2 = true) :
    chkResetAux f (l1 ++ l2) = true := by
  induction l1 generalizing f with
  | nil => rw [List.nil_append, chkResetAux_of_headNotApply l2 h3 f]; exact h2
  | cons e t ih =>
    cases e <;> simp only [List.cons_append, chkResetAux] at h1 ⊢
    case applyPatch ok =>
      cases f with
      | false => simp at h1
      | true =>
        rw [Bool.true_and] at h1 ⊢
        exact ih false h1
    all_goals exact ih _ h1

theorem headNotApplyB_append (l1 l2 : List Event)
    (h1 : headNotApplyB l1 = true) (h2 : headNotApplyB l2 = true) :
    headNotApplyB (l1 ++ l2) = true := by
  cases l1 with
  | nil => simpa using h2
  | cons e t => cases e <;> simp_all [headNotApplyB]

theorem attemptStep_evs_delta (cfg : Cfg) (env : Env) (tag : Option Nat)
    (n : Nat) (st : St) :
    ∃ d, (attemptStep cfg env tag n st).2.evs = st.evs ++ d ∧
      chkResetAux false d = true ∧ headNotApplyB d = true ∧
      d.countP isFlushEv = 0 ∧ d.countP isProposeEv = 1 ∧
      d.countP isCoachEv = 0 := by
  unfold attemptStep proposeOp approvalOp applyOp runTestsOp
  dsimp only
  split_ifs
  · exact ⟨[Event.propose, Event.reset,
      Event.applyPatch (env.applyOK st.ctr.agit),
      Event.runTests (env.testPass st.ctr.te)],
      by simp, rfl, rfl, rfl, rfl, rfl⟩
  · exact ⟨[Event.propose, Event.reset,
      Event.applyPatch (env.applyOK st.ctr.agit),
      Event.runTests (env.testPass st.ctr.te)],
      by simp, rfl, rfl, rfl, rfl, rfl⟩
  · exact ⟨[Event.propose, Event.reset,
      Event.applyPatch (env.applyOK st.ctr.agit)],
      by simp, rfl, rfl, rfl, rfl, rfl⟩
  · exact ⟨[Event.propose], by simp, rfl, rfl, rfl, rfl, rfl⟩
  · exact ⟨[Event.propose, Event.reset,
      Event.applyPatch (env.applyOK st.ctr.agit),
      Event.runTests (env.testPass st.ctr.te)],
      by simp, rfl, rfl, rfl, rfl, rfl⟩
  · exact ⟨[Event.propose, Event.reset,
      Event.applyPatch (env.applyOK st.ctr.agit),
      Event.runTests (env.testPass st.ctr.te)],
      by simp, rfl, rfl, rfl, rfl, rfl⟩
  · exact ⟨[Event.propose, Event.reset,
      Event.applyPatch (env.applyOK st.ctr.agit)],
      by simp, rfl, rfl, rfl, rfl, rfl⟩
  · exact ⟨[Event.propose], by simp, rfl, rfl, rfl, rfl, rfl⟩
  · exact ⟨[Event.propose], by simp, rfl, rfl, rfl, rfl, rfl⟩

theorem attemptLoop_evs_delta (cfg : Cfg) (env : Env) (tag : Option Nat) :
    ∀ (k n : Nat) (st : St), ∃ d,
      (attemptLoop cfg env tag k n st).2.evs = st.evs ++ d ∧
        chkResetAux false d = true ∧ headNotApplyB d = true ∧
        d.countP isFlushEv = 0 ∧ d.countP isCoachEv = 0 := by
  intro k
  induction k with
  | zero => intro n st; exact ⟨[], by simp [attemptLoop], rfl, rfl, rfl, rfl⟩
  | succ k ih =>
    intro n st
    obtain ⟨d1, e1, c1, h1, f1, _, co1⟩ := attemptStep_evs_delta cfg env tag n st
    simp only [attemptLoop]
    split
    · exact ⟨d1, e1, c1, h1, f1, co1⟩
    · obtain ⟨d2, e2, c2, h2, f2, co2⟩ := ih (n + 1) (attemptStep cfg env tag n st).2
      refine ⟨d1 ++ d2, ?_, ?_, ?_, ?_, ?_⟩
      · rw [e2, e1, List.append_assoc]
      · exact chkResetAux_append d1 d2 false c1 c2 h2
      · exact headNotApplyB_append d1 d2 h1 h2
      · rw [List.countP_append, f1, f2]
      · rw [List.countP_append, co1, co2]

theorem delta_glue (pre d2 : List Event)
    (hc : chkResetAux false pre = true) (hh : headNotApplyB pre = true)
    (hf : pre.countP isFlushEv = 0)
    (c2 : chkResetAux false d2 = true) (h2 : headNotApplyB d2 = true)
    (f2 : d2.countP isFlushEv = 0) :
    chkResetAux false (pre ++ d2) = true ∧ headNotApplyB (pre ++ d2) = true ∧
      (pre ++ d2).countP isFlushEv = 0 :=
  ⟨chkResetAux_append pre d2 false hc c2 h2, headNotApplyB_append pre d2 hh h2,
   by rw [List.countP_append, hf, f2]⟩

theorem refineRound_evs_delta (cfg : Cfg) (env : Env) (r : Nat) (st : St) :
    ∃ d, (refineRound cfg env r st).2.evs = st.evs ++ d ∧
      chkResetAux false d = true ∧ headNotApplyB d = true ∧
      d.countP isFlushEv = 0 := by
  unfold refineRound coachOp checkoutOp runTestsOp
  dsimp only
  split_ifs
  · exact ⟨[Event.coachCall, Event.reset,
      Event.checkout (env.checkoutOK st.ctr.co),
      Event.runTests (env.testPass st.ctr.te)], by simp, rfl, rfl, rfl⟩
  · obtain ⟨d2, e2, c2, h2, f2, -⟩ :=
      attemptLoop_evs_delta cfg env (some r) cfg.maxAttempts 1 _
    have g := delta_glue [Event.coachCall, Event.reset,
      Event.checkout (env.checkoutOK st.ctr.co),
      Event.runTests (env.testPass st.ctr.te)] d2 rfl rfl rfl c2 h2 f2
    exact ⟨_ ++ d2, by rw [e2]; simp, g.1, g.2.1, g.2.2⟩
  · obtain ⟨d2, e2, c2, h2, f2, -⟩ :=
      attemptLoop_evs_delta cfg env (some r) cfg.maxAttempts 1 _
    have g := delta_glue [Event.coachCall, Event.reset,
      Event.checkout (env.checkoutOK st.ctr.co),
      Event.runTests (env.testPass st.ctr.te)] d2 rfl rfl rfl c2 h2 f2
    exact ⟨_ ++ d2, by rw [e2]; simp, g.1, g.2.1, g.2.2⟩
  · exact ⟨[Event.coachCall, Event.reset,
      Event.checkout (env.checkoutOK st.ctr.co)], by simp, rfl, rfl, rfl⟩
  · exact ⟨[Event.coachCall, Event.save, Event.reset,
      Event.checkout (env.checkoutOK st.ctr.co),
      Event.runTests (env.testPass st.ctr.te)], by simp, rfl, rfl, rfl⟩
  · obtain ⟨d2, e2, c2, h2, f2, -⟩ :=
      attemptLoop_evs_delta cfg env (some r) cfg.maxAttempts 1 _
    have g := delta_glue [Event.coachCall, Event.save, Event.reset,
      Event.checkout (env.checkoutOK st.ctr.co),
      Event.runTests (env.testPass st.ctr.te)] d2 rfl rfl rfl c2 h2 f2
    exact ⟨_ ++ d2, by rw [e2]; simp, g.1, g.2.1, g.2.2⟩
  · obtain ⟨d2, e2, c2, h2, f2, -⟩ :=
      attemptLoop_evs_delta cfg env (some r) cfg.maxAttempts 1 _
    have g := delta_glue [Event.coachCall, Event.save, Event.reset,
      Event.checkout (env.checkoutOK st.ctr.co),
      Event.runTests (env.testPass st.ctr.te)] d2 rfl rfl rfl c2 h2 f2
    exact ⟨_ ++ d2, by rw [e2]; simp, g.1, g.2.1, g.2.2⟩
  · exact ⟨[Event.coachCall, Event.save, Event.reset,
      Event.checkout (env.checkoutOK st.ctr.co)], by simp, rfl, rfl, rfl⟩

theorem refineLoop_evs_delta (cfg : Cfg) (env : Env) :
    ∀ (k r : Nat) (st : St), ∃ d,
      (refineLoop cfg env k r st).2.evs = st.evs ++ d ∧
        chkResetAux false d = true ∧ headNotApplyB d = true ∧
        d.countP isFlushEv = 0 := by
  intro k
  induction k with
  | zero => intro r st; exact ⟨[], by simp [refineLoop], rfl, rfl, rfl⟩
  | succ k ih =>
    intro r st
    obtain ⟨d1, e1, c1, h1, f1⟩ := refineRound_evs_delta cfg env r st
    simp only [refineLoop]
    split
    · exact ⟨d1, e1, c1, h1, f1⟩
    · exact ⟨d1, e1, c1, h1, f1⟩
    · obtain ⟨d2, e2, c2, h2, f2⟩ := ih (r + 1) (refineRound cfg env r st).2
      have g := delta_glue d1 d2 c1 h1 f1 c2 h2 f2
      refine ⟨d1 ++ d2, ?_, g.1, g.2.1, g.2.2⟩
      rw [e2, e1, List.append_assoc]

/-!  ## Reset before every patch application (claim C1) -/

/-- C1: in every scenario run, every patch application event in the trace
is immediately preceded by a worktree-reset event (`git reset --hard` plus
`git clean`), in the initial attempt loop and in every post-refinement
attempt loop alike, so no attempt starts from another attempt's edits. -/
theorem processScenario_reset_before_apply (cfg : Cfg) (env : Env)
    (sc : BugScenario) (items0 file0 : List String) :
    resetBeforeApply (processScenario cfg env sc items0 file0).2.evs = true := by
  unfold processScenario checkoutOp runTestsOp flushOp initSt resetBeforeApply
  dsimp only
  split_ifs
  · rfl
  · obtain ⟨d1, e1, c1, h1, -, -⟩ :=
      attemptLoop_evs_delta cfg env none cfg.maxAttempts 1 _
    rw [e1]
    have g1 := chkResetAux_append [Event.reset,
      Event.checkout (env.checkoutOK 0), Event.runTests (env.testPass 0)]
      d1 false rfl c1 h1
    have g2 := chkResetAux_append _ [Event.flushLog (logName sc)] false g1 rfl rfl
    simpa using g2
  · obtain ⟨d1, e1, c1, h1, -, -⟩ :=
      attemptLoop_evs_delta cfg env none cfg.maxAttempts 1 _
    obtain ⟨d2, e2, c2, h2, -⟩ := refineLoop_evs_delta cfg env cfg.maxRefines 1 _
    rw [e2, e1]
    have g1 := chkResetAux_append [Event.reset,
      Event.checkout (env.checkoutOK 0), Event.runTests (env.testPass 0)]
      d1 false rfl c1 h1
    have g2 := chkResetAux_append _ d2 false g1 c2 h2
    have g3 := chkResetAux_append _ [Event.flushLog (logName sc)] false g2 rfl rfl
    simpa using g3
  · obtain ⟨d1, e1, c1, h1, -, -⟩ :=
      attemptLoop_evs_delta cfg env none cfg.maxAttempts 1 _
    obtain ⟨d2, e2, c2, h2, -⟩ := refineLoop_evs_delta cfg env cfg.maxRefines 1 _
    rw [e2, e1]
    have g1 := chkResetAux_append [Event.reset,
      Event.checkout (env.checkoutOK 0), Event.runTests (env.testPass 0)]
      d1 false rfl c1 h1
    have g2 := chkResetAux_append _ d2 false g1 c2 h2
    have g3 := chkResetAux_append _ [Event.flushLog (logName sc)] false g2 rfl rfl
    simpa using g3
  · rfl

/-!  ## Proposer invocation count on exhausted budgets (claim C2) -/

theorem attemptStep_allfail (cfg : Cfg) (env : Env) (tag : Option Nat)
    (n : Nat) (st : St) (hT : ∀ m, env.testPass m = false) :
    (attemptStep cfg env tag n st).1 = false := by
  unfold attemptStep proposeOp approvalOp applyOp runTestsOp
  dsimp only
  split_ifs <;> first | rfl | simp_all [hT]

theorem attemptLoop_allfail (cfg : Cfg) (env : Env) (tag : Option Nat)
    (hT : ∀ m, env.testPass m = false) :
    ∀ (k n : Nat) (st : St), (attemptLoop cfg env tag k n st).1 = false ∧
      (attemptLoop cfg env tag k n st).2.evs.countP isProposeEv =
        st.evs.countP isProposeEv + k := by
  intro k
  induction k with
  | zero => intro n st; simp [attemptLoop]
  | succ k ih =>
    intro n st
    have hs := attemptStep_allfail cfg env tag n st hT
    obtain ⟨d1, e1, -, -, -, p1, -⟩ := attemptStep_evs_delta cfg env tag n st
    simp only [attemptLoop, hs, Bool.false_eq_true, if_false]
    obtain ⟨ihf, ihc⟩ := ih (n + 1) (attemptStep cfg env tag n st).2
    refine ⟨ihf, ?_⟩
    rw [ihc, e1, List.countP_append, p1]
    omega

theorem refineRound_allfail (cfg : Cfg) (env : Env)
    (hT : ∀ m, env.testPass m = false) (hC : ∀ m, env.checkoutOK m = true)
    (r : Nat) (st : St) :
    (refineRound cfg env r st).1 = RoundRes.cont ∧
      (refineRound cfg env r st).2.evs.countP isProposeEv =
        st.evs.countP isProposeEv + cfg.maxAttempts := by
  unfold refineRound coachOp checkoutOp runTestsOp
  dsimp only
  simp only [hC, hT, Bool.false_eq_true, if_false, if_true, eq_self_iff_true]
  split_ifs with h1 h2 h3
  · rw [(attemptLoop_allfail cfg env (some r) hT cfg.maxAttempts 1 _).1] at h2
    exact absurd h2 (by simp)
  · refine ⟨rfl, ?_⟩
    rw [(attemptLoop_allfail cfg env (some r) hT cfg.maxAttempts 1 _).2]
    simp [List.countP_append, isProposeEv, List.countP_cons]
  · rw [(attemptLoop_allfail cfg env (some r) hT cfg.maxAttempts 1 _).1] at h3
    exact absurd h3 (by simp)
  · refine ⟨rfl, ?_⟩
    rw [(attemptLoop_allfail cfg env (some r) hT cfg.maxAttempts 1 _).2]
    simp [List.countP_append, isProposeEv, List.countP_cons]

theorem refineLoop_allfail (cfg : Cfg) (env : Env)
    (hT : ∀ m, env.testPass m = false) (hC : ∀ m, env.checkoutOK m = true) :
    ∀ (k r : Nat) (st : St), (refineLoop cfg env k r st).1 = false ∧
      (refineLoop cfg env k r st).2.evs.countP isProposeEv =
        st.evs.countP isProposeEv + k * cfg.maxAttempts := by
  intro k
  induction k with
  | zero => intro r st; simp [refineLoop]
  | succ k ih =>
    intro r st
    obtain ⟨hr1, hr2⟩ := refineRound_allfail cfg env hT hC r st
    simp only [refineLoop, hr1]
    obtain ⟨ihf, ihc⟩ := ih (r + 1) (refineRound cfg env r st).2
    refine ⟨ihf, ?_⟩
    rw [ihc, hr2, Nat.succ_mul]
    omega

/-- C2: when every checkout succeeds and every test run fails (so the
baseline keeps failing, no attempt ever succeeds and all budgets are
exhausted), the number of proposer invocations in the scenario's trace is
exactly `maxAttempts * (1 + maxRefinements)`. -/
theorem exhausted_budget_propose_count (cfg : Cfg) (env : Env)
    (sc : BugScenario) (items0 file0 : List String)
    (hT : ∀ m, env.testPass m = false) (hC : ∀ m, env.checkoutOK m = true) :
    (processScenario cfg env sc items0 file0).2.evs.countP isProposeEv =
      cfg.maxAttempts * (1 + cfg.maxRefines) := by
  unfold processScenario checkoutOp runTestsOp flushOp initSt
  dsimp only
  simp only [hC, hT, Bool.false_eq_true, if_false, if_true, eq_self_iff_true]
  split_ifs with h1 h2
  · rw [(attemptLoop_allfail cfg env none hT cfg.maxAttempts 1 _).1] at h1
    exact absurd h1 (by simp)
  · rw [(refineLoop_allfail cfg env hT hC cfg.maxRefines 1 _).1] at h2
    exact absurd h2 (by simp)
  · dsimp only
    rw [List.countP_append,
      (refineLoop_allfail cfg env hT hC cfg.maxRefines 1 _).2,
      (attemptLoop_allfail cfg env none hT cfg.maxAttempts 1 _).2]
    simp only [List.countP_cons, List.countP_nil, List.nil_append,
      List.countP_append, isProposeEv, Bool.false_eq_true, if_false]
    ring_nf

/-- Witness for C2: maxAttempts 2, maxRefinements 1, all tests failing. -/
theorem exhausted_budget_propose_count_witness :
    (processScenario (Cfg.mk 2 1 false) envAllFailW scW [] []).2.evs.countP
        isProposeEv = 2 * (1 + 1) :=
  exhausted_budget_propose_count (Cfg.mk 2 1 false) envAllFailW scW [] []
    (fun _ => rfl) (fun _ => rfl)

/-!  ## Baseline before any proposal; passing baseline skips (claim C3) -/

theorem testsBeforeProposal_after_baseline (b p : Bool) (rest : List Event) :
    testsBeforeProposal
      (Event.reset :: Event.checkout b :: Event.runTests p :: rest) = true := rfl

/-- C3: the baseline test run happens before any proposer or coach call in
every scenario trace; and when the initial checkout succeeds and that
baseline passes, the scenario ends as skipped-already-passing with zero
proposer calls, zero coach calls and an untouched guideline ledger (both
in memory and on disk). -/
theorem baseline_first_and_skip (cfg : Cfg) (env : Env) (sc : BugScenario)
    (items0 file0 : List String) :
    testsBeforeProposal (processScenario cfg env sc items0 file0).2.evs = true ∧
      (env.checkoutOK 0 = true → env.testPass 0 = true →
        (processScenario cfg env sc items0 file0).1 =
            Outcome.skippedAlreadyPassing ∧
          (processScenario cfg env sc items0 file0).2.evs.countP isProposeEv = 0 ∧
          (processScenario cfg env sc items0 file0).2.evs.countP isCoachEv = 0 ∧
          (processScenario cfg env sc items0 file0).2.items = items0 ∧
          (processScenario cfg env sc items0 file0).2.file = file0) := by
  constructor
  · unfold processScenario checkoutOp runTestsOp flushOp initSt
    dsimp only
    split_ifs
    · rfl
    · obtain ⟨d1, e1, -, -, -, -⟩ :=
        attemptLoop_evs_delta cfg env none cfg.maxAttempts 1 _
      rw [e1]
      dsimp only
      simpa using testsBeforeProposal_after_baseline (env.checkoutOK 0)
        (env.testPass 0) (d1 ++ [Event.flushLog (logName sc)])
    · obtain ⟨d1, e1, -, -, -, -⟩ :=
        attemptLoop_evs_delta cfg env none cfg.maxAttempts 1 _
      obtain ⟨d2, e2, -, -, -⟩ := refineLoop_evs_delta cfg env cfg.maxRefines 1 _
      rw [e2, e1]
      dsimp only
      simpa using testsBeforeProposal_after_baseline (env.checkoutOK 0)
        (env.testPass 0) (d1 ++ (d2 ++ [Event.flushLog (logName sc)]))
    · obtain ⟨d1, e1, -, -, -, -⟩ :=
        attemptLoop_evs_delta cfg env none cfg.maxAttempts 1 _
      obtain ⟨d2, e2, -, -, -⟩ := refineLoop_evs_delta cfg env cfg.maxRefines 1 _
      rw [e2, e1]
      dsimp only
      simpa using testsBeforeProposal_after_baseline (env.checkoutOK 0)
        (env.testPass 0) (d1 ++ (d2 ++ [Event.flushLog (logName sc)]))
    · rfl
  · intro h1 h2
    unfold processScenario checkoutOp runTestsOp initSt
    dsimp only
    simp [h1, h2, isProposeEv, isCoachEv]

/-- Witness for C3 at a baseline that passes immediately. -/
theorem baseline_first_and_skip_witness :
    testsBeforeProposal
        (processScenario (Cfg.mk 3 10 false) envBaselinePassW scW [] []).2.evs =
        true ∧
      (processScenario (Cfg.mk 3 10 false) envBaselinePassW scW [] []).1 =
        Outcome.skippedAlreadyPassing :=
  ⟨(baseline_first_and_skip (Cfg.mk 3 10 false) envBaselinePassW scW [] []).1,
   (((baseline_first_and_skip (Cfg.mk 3 10 false) envBaselinePassW scW [] []).2)
     rfl rfl).1⟩

/-!  ## Anomalous baseline during refinement (claim C6) -/

theorem patchEntry_ne_anomalous (tag : Option Nat) (n : Nat) (p : String) :
    patchEntry tag n p ≠ LogEntry.anomalousBaseline := by
  cases tag <;> simp [patchEntry]

theorem outputEntry_ne_anomalous (tag : Option Nat) (n : Nat) :
    outputEntry tag n ≠ LogEntry.anomalousBaseline := by
  cases tag <;> simp [outputEntry]

theorem successEntry_ne_anomalous (tag : Option Nat) (n : Nat) (p : String) :
    successEntry tag n p ≠ LogEntry.anomalousBaseline := by
  cases tag <;> simp [successEntry]

theorem isSuccessEntry_patchEntry (tag : Option Nat) (n : Nat) (p : String) :
    isSuccessEntry (patchEntry tag n p) = false := by
  cases tag <;> rfl

theorem isSuccessEntry_outputEntry (tag : Option Nat) (n : Nat) :
    isSuccessEntry (outputEntry tag n) = false := by
  cases tag <;> rfl

theorem attemptStep_log_delta (cfg : Cfg) (env : Env) (tag : Option Nat)
    (n : Nat) (st : St) :
    ∃ dl, (attemptStep cfg env tag n st).2.logBuf = st.logBuf ++ dl ∧
      LogEntry.anomalousBaseline ∉ dl ∧
      ((attemptStep cfg env tag n st).1 = false →
        ∀ e ∈ dl, isSuccessEntry e = false) := by
  unfold attemptStep proposeOp approvalOp applyOp runTestsOp
  dsimp only
  split_ifs
  · refine ⟨[patchEntry tag n (pyStripS (env.proposeResp st.ctr.pr)),
      outputEntry tag n,
      successEntry tag n (pyStripS (env.proposeResp st.ctr.pr))],
      by simp, ?_, ?_⟩
    · simp only [List.mem_cons, List.not_mem_nil, or_false, not_or]
      exact ⟨fun he => patchEntry_ne_anomalous tag n _ he.symm,
        fun he => outputEntry_ne_anomalous tag n he.symm,
        fun he => successEntry_ne_anomalous tag n _ he.symm⟩
    · intro hfalse
      simp at hfalse
  · refine ⟨[patchEntry tag n (pyStripS (env.proposeResp st.ctr.pr)),
      outputEntry tag n], by simp, ?_, ?_⟩
    · simp only [List.mem_cons, List.not_mem_nil, or_false, not_or]
      exact ⟨fun he => patchEntry_ne_anomalous tag n _ he.symm,
        fun he => outputEntry_ne_anomalous tag n he.symm⟩
    · intro hfalse
      simp [isSuccessEntry_patchEntry, isSuccessEntry_outputEntry]
  · exact ⟨[], by simp, by simp, by simp⟩
  · exact ⟨[], by simp, by simp, by simp⟩
  · refine ⟨[patchEntry tag n (pyStripS (env.proposeResp st.ctr.pr)),
      outputEntry tag n,
      successEntry tag n (pyStripS (env.proposeResp st.ctr.pr))],
      by simp, ?_, ?_⟩
    · simp only [List.mem_cons, List.not_mem_nil, or_false, not_or]
      exact ⟨fun he => patchEntry_ne_anomalous tag n _ he.symm,
        fun he => outputEntry_ne_anomalous tag n he.symm,
        fun he => successEntry_ne_anomalous tag n _ he.symm⟩
    · intro hfalse
      simp at hfalse
  · refine ⟨[patchEntry tag n (pyStripS (env.proposeResp st.ctr.pr)),
      outputEntry tag n], by simp, ?_, ?_⟩
    · simp only [List.mem_cons, List.not_mem_nil, or_false, not_or]
      exact ⟨fun he => patchEntry_ne_anomalous tag n _ he.symm,
        fun he => outputEntry_ne_anomalous tag n he.symm⟩
    · intro hfalse
      simp [isSuccessEntry_patchEntry, isSuccessEntry_outputEntry]
  · exact ⟨[], by simp, by simp, by simp⟩
  · exact ⟨[], by simp, by simp, by simp⟩
  · exact ⟨[], by simp, by simp, by simp⟩

theorem attemptLoop_log_delta (cfg : Cfg) (env : Env) (tag : Option Nat) :
    ∀ (k n : Nat) (st : St), ∃ dl,
      (attemptLoop cfg env tag k n st).2.logBuf = st.logBuf ++ dl ∧
        LogEntry.anomalousBaseline ∉ dl ∧
        ((attemptLoop cfg env tag k n st).1 = false →
          ∀ e ∈ dl, isSuccessEntry e = false) := by
  intro k
  induction k with
  | zero => intro n st; exact ⟨[], by simp [attemptLoop], by simp, by simp⟩
  | succ k ih =>
    intro n st
    obtain ⟨d1, e1, a1, s1⟩ := attemptStep_log_delta cfg env tag n st
    simp only [attemptLoop]
    split
    · exact ⟨d1, e1, a1, by intro hfalse; simp_all⟩
    · obtain ⟨d2, e2, a2, s2⟩ := ih (n + 1) (attemptStep cfg env tag n st).2
      rename_i hstep
      refine ⟨d1 ++ d2, by rw [e2, e1, List.append_assoc], ?_, ?_⟩
      · intro hm
        rcases List.mem_append.mp hm with hm1 | hm2
        · exact a1 hm1
        · exact a2 hm2
      · intro hrec e he
        rcases List.mem_append.mp he with he1 | he2
        · exact s1 (by simpa using hstep) e he1
        · exact s2 hrec e he2

theorem refineRound_log_delta (cfg : Cfg) (env : Env) (r : Nat) (st : St) :
    ∃ dl, (refineRound cfg env r st).2.logBuf = st.logBuf ++ dl ∧
      ((refineRound cfg env r st).1 ≠ RoundRes.broke →
        LogEntry.anomalousBaseline ∉ dl) ∧
      ((refineRound cfg env r st).1 ≠ RoundRes.success →
        ∀ e ∈ dl, isSuccessEntry e = false) := by
  unfold refineRound coachOp checkoutOp runTestsOp
  dsimp only
  split_ifs
  · exact ⟨[LogEntry.refineNone r, LogEntry.anomalousBaseline],
      by simp, by intro hne; exact absurd rfl hne, by intro hne; simp [isSuccessEntry]⟩
  · obtain ⟨d2, e2, a2, s2⟩ := attemptLoop_log_delta cfg env (some r)
      cfg.maxAttempts 1 _
    rename_i hal
    refine ⟨LogEntry.refineNone r :: d2, ?_, ?_, ?_⟩
    · rw [e2]; simp
    · intro hne hm
      rcases List.mem_cons.mp hm with hm1 | hm2
      · exact absurd hm1 (by simp)
      · exact a2 hm2
    · intro hne
      exact absurd rfl hne
  · obtain ⟨d2, e2, a2, s2⟩ := attemptLoop_log_delta cfg env (some r)
      cfg.maxAttempts 1 _
    rename_i hal
    refine ⟨LogEntry.refineNone r :: d2, ?_, ?_, ?_⟩
    · rw [e2]; simp
    · intro hne hm
      rcases List.mem_cons.mp hm with hm1 | hm2
      · exact absurd hm1 (by simp)
      · exact a2 hm2
    · intro hne e he
      rcases List.mem_cons.mp he with he1 | he2
      · subst he1; rfl
      · exact s2 (by simpa using hal) e he2
  · exact ⟨[LogEntry.refineNone r], by simp, by intro hne; simp,
      by intro hne; simp [isSuccessEntry]⟩
  · exact ⟨[LogEntry.refineGuides r (env.coachGuides st.ctr.ch),
      LogEntry.anomalousBaseline],
      by simp, by intro hne; exact absurd rfl hne,
      by intro hne; simp [isSuccessEntry]⟩
  · obtain ⟨d2, e2, a2, s2⟩ := attemptLoop_log_delta cfg env (some r)
      cfg.maxAttempts 1 _
    rename_i hal
    refine ⟨LogEntry.refineGuides r (env.coachGuides st.ctr.ch) :: d2, ?_, ?_, ?_⟩
    · rw [e2]; simp
    · intro hne hm
      rcases List.mem_cons.mp hm with hm1 | hm2
      · exact absurd hm1 (by simp)
      · exact a2 hm2
    · intro hne
      exact absurd rfl hne
  · obtain ⟨d2, e2, a2, s2⟩ := attemptLoop_log_delta cfg env (some r)
      cfg.maxAttempts 1 _
    rename_i hal
    refine ⟨LogEntry.refineGuides r (env.coachGuides st.ctr.ch) :: d2, ?_, ?_, ?_⟩
    · rw [e2]; simp
    · intro hne hm
      rcases List.mem_cons.mp hm with hm1 | hm2
      · exact absurd hm1 (by simp)
      · exact a2 hm2
    · intro hne e he
      rcases List.mem_cons.mp he with he1 | he2
      · subst he1; rfl
      · exact s2 (by simpa using hal) e he2
  · exact ⟨[LogEntry.refineGuides r (env.coachGuides st.ctr.ch)], by simp,
      by intro hne; simp, by intro hne; simp [isSuccessEntry]⟩

theorem refineLoop_log_delta (cfg : Cfg) (env : Env) :
    ∀ (k r : Nat) (st : St), ∃ dl,
      (refineLoop cfg env k r st).2.logBuf = st.logBuf ++ dl ∧
        ((refineLoop cfg env k r st).1 = true →
          LogEntry.anomalousBaseline ∉ dl) ∧
        ((refineLoop cfg env k r st).1 = false →
          ∀ e ∈ dl, isSuccessEntry e = false) := by
  intro k
  induction k with
  | zero => intro r st; exact ⟨[], by simp [refineLoop], by simp, by simp⟩
  | succ k ih =>
    intro r st
    obtain ⟨d1, e1, a1, s1⟩ := refineRound_log_delta cfg env r st
    simp only [refineLoop]
    split
    · rename_i hres
      exact ⟨d1, e1, fun _ => a1 (by simp [hres]), fun hfalse => by simp at hfalse⟩
    · rename_i hres
      exact ⟨d1, e1, fun htrue => by simp at htrue,
        fun _ => s1 (by simp [hres])⟩
    · rename_i hres
      obtain ⟨d2, e2, a2, s2⟩ := ih (r + 1) (refineRound cfg env r st).2
      refine ⟨d1 ++ d2, by rw [e2, e1, List.append_assoc], ?_, ?_⟩
      · intro htrue hm
        rcases List.mem_append.mp hm with hm1 | hm2
        · exact a1 (by simp [hres]) hm1
        · exact a2 htrue hm2
      · intro hfalse e he
        rcases List.mem_append.mp he with he1 | he2
        · exact s1 (by simp [hres]) e he1
        · exact s2 hfalse e he2

/-- C6: if a scenario's log records the anomalous event that the baseline
unexpectedly passed after a refinement-round reset, then the scenario's
outcome is `Failed`, the log carries the failure marker, and no success
marker (neither `Fixed` nor `FixedAfterRefinement` evidence) appears in
the log. -/
theorem anomalous_baseline_never_success (cfg : Cfg) (env : Env)
    (sc : BugScenario) (items0 file0 : List String)
    (h : LogEntry.anomalousBaseline ∈
      (processScenario cfg env sc items0 file0).2.logBuf) :
    (processScenario cfg env sc items0 file0).1 = Outcome.failed ∧
      LogEntry.failedMark ∈ (processScenario cfg env sc items0 file0).2.logBuf ∧
      ∀ e ∈ (processScenario cfg env sc items0 file0).2.logBuf,
        isSuccessEntry e = false := by
  unfold processScenario checkoutOp runTestsOp flushOp initSt at h ⊢
  dsimp only at h ⊢
  split_ifs at h ⊢
  · exact absurd h (by simp)
  · obtain ⟨d1, e1, a1, s1⟩ :=
      attemptLoop_log_delta cfg env none cfg.maxAttempts 1 _
    rw [e1] at h
    dsimp only at h
    rcases List.mem_append.mp h with h1 | h2
    · exact absurd h1 (by simp)
    · exact absurd h2 a1
  · rename_i hco hpass hal hrl
    obtain ⟨d1, e1, a1, s1⟩ :=
      attemptLoop_log_delta cfg env none cfg.maxAttempts 1 _
    obtain ⟨d2, e2, a2, s2⟩ :=
      refineLoop_log_delta cfg env cfg.maxRefines 1 _
    rw [e2, e1] at h
    dsimp only at h
    rcases List.mem_append.mp h with h12 | h3
    · rcases List.mem_append.mp h12 with h1 | h2
      · exact absurd h1 (by simp)
      · exact absurd h2 a1
    · exact absurd h3 (a2 hrl)
  · rename_i hco hpass hal hrl
    obtain ⟨d1, e1, a1, s1⟩ :=
      attemptLoop_log_delta cfg env none cfg.maxAttempts 1 _
    obtain ⟨d2, e2, a2, s2⟩ :=
      refineLoop_log_delta cfg env cfg.maxRefines 1 _
    refine ⟨rfl, ?_, ?_⟩
    · rw [e2, e1]
      dsimp only
      exact List.mem_append_right _ (List.mem_singleton.mpr rfl)
    · intro e he
      rw [e2, e1] at he
      dsimp only at he
      rcases List.mem_append.mp he with he12 | hef
      · rcases List.mem_append.mp he12 with he1 | he2
        · rcases List.mem_append.mp he1 with heh | hed1
          · rcases List.mem_cons.mp heh with hh | hh
            · subst hh; rfl
            · rcases List.mem_cons.mp hh with hh2 | hh2
              · subst hh2; rfl
              · exact absurd hh2 (by simp)
          · exact s1 (by simpa using hal) e hed1
        · exact s2 (by simpa using hrl) e he2
      · rcases List.mem_singleton.mp hef with rfl
        rfl
  · exact absurd h (by simp)

/-- Witness for C6: one attempt, one refinement round, with the baseline
passing on the post-coach reset (test run 1). -/
theorem anomalous_baseline_never_success_witness :
    (processScenario (Cfg.mk 1 1 false) envAnomalousW scW [] []).1 =
        Outcome.failed ∧
      LogEntry.failedMark ∈
        (processScenario (Cfg.mk 1 1 false) envAnomalousW scW [] []).2.logBuf ∧
      ∀ e ∈ (processScenario (Cfg.mk 1 1 false) envAnomalousW scW [] []).2.logBuf,
        isSuccessEntry e = false :=
  anomalous_baseline_never_success (Cfg.mk 1 1 false) envAnomalousW scW [] []
    (by decide)

/-!  ## Non-diff-shaped proposals are attempt-soft (claim C7) -/

/-- C7: when the (stripped) proposer response carries neither a
`diff --git` marker nor a `---` hunk-header line, the attempt performs no
patch application and no test run (the only new event is the proposer
call), appends nothing to the log, records the response as the last failed
diff, and the attempt returns failure so the loop simply advances to the
next attempt. -/
theorem nondiff_attempt_soft (cfg : Cfg) (env : Env) (tag : Option Nat)
    (n : Nat) (st : St)
    (h : looksLikeDiffS (pyStripS (env.proposeResp st.ctr.pr)) = false) :
    (attemptStep cfg env tag n st).1 = false ∧
      (attemptStep cfg env tag n st).2.evs = st.evs ++ [Event.propose] ∧
      (attemptStep cfg env tag n st).2.logBuf = st.logBuf ∧
      (attemptStep cfg env tag n st).2.lastDiff =
        pyStripS (env.proposeResp st.ctr.pr) ∧
      (∀ k, attemptLoop cfg env tag (Nat.succ k) n st =
        attemptLoop cfg env tag k (n + 1) (attemptStep cfg env tag n st).2) := by
  have hstep : (attemptStep cfg env tag n st).1 = false ∧
      (attemptStep cfg env tag n st).2.evs = st.evs ++ [Event.propose] ∧
      (attemptStep cfg env tag n st).2.logBuf = st.logBuf ∧
      (attemptStep cfg env tag n st).2.lastDiff =
        pyStripS (env.proposeResp st.ctr.pr) := by
    unfold attemptStep proposeOp
    dsimp only
    rw [if_neg (by simp [h])]
    exact ⟨rfl, rfl, rfl, rfl⟩
  refine ⟨hstep.1, hstep.2.1, hstep.2.2.1, hstep.2.2.2, ?_⟩
  intro k
  simp only [attemptLoop, hstep.1, Bool.false_eq_true, if_false]

/-- Witness for C7: the proposer returns the credentials-missing
placeholder, which is not diff-shaped. -/
theorem nondiff_attempt_soft_witness :
    (attemptStep (Cfg.mk 3 10 false) envPlaceholderW none 1 (initSt [] [])).1 =
        false ∧
      (attemptStep (Cfg.mk 3 10 false) envPlaceholderW none 1
          (initSt [] [])).2.evs = (initSt [] []).evs ++ [Event.propose] :=
  ⟨(nondiff_attempt_soft (Cfg.mk 3 10 false) envPlaceholderW none 1
      (initSt [] []) (by decide)).1,
   (nondiff_attempt_soft (Cfg.mk 3 10 false) envPlaceholderW none 1
      (initSt [] []) (by decide)).2.1⟩

/-!  ## Log flush at scenario termination (claim C9) -/

/-- C9 (amended): for every scenario that enters the repair loop (initial
checkout succeeds and the baseline test fails), the buffered log is
flushed exactly once, as the very last action of the scenario, to the file
named from the truncated buggy-parent and fix commit identifiers.
Scenarios skipped for checkout failure or an already-passing baseline
never flush a log at all. -/
theorem flush_once_on_repair (cfg : Cfg) (env : Env) (sc : BugScenario)
    (items0 file0 : List String)
    (h1 : env.checkoutOK 0 = true) (h2 : env.testPass 0 = false) :
    ∃ pre, (processScenario cfg env sc items0 file0).2.evs =
        pre ++ [Event.flushLog (logName sc)] ∧
      pre.countP isFlushEv = 0 := by
  unfold processScenario checkoutOp runTestsOp flushOp initSt
  dsimp only
  simp only [h1, h2, if_true, Bool.false_eq_true, if_false, eq_self_iff_true]
  split_ifs
  · obtain ⟨d1, e1, -, -, f1, -⟩ :=
      attemptLoop_evs_delta cfg env none cfg.maxAttempts 1 _
    refine ⟨_, rfl, ?_⟩
    rw [e1]
    dsimp only
    simp [List.countP_append, List.countP_cons, f1, isFlushEv]
  · obtain ⟨d1, e1, -, -, f1, -⟩ :=
      attemptLoop_evs_delta cfg env none cfg.maxAttempts 1 _
    obtain ⟨d2, e2, -, -, f2⟩ := refineLoop_evs_delta cfg env cfg.maxRefines 1 _
    refine ⟨_, rfl, ?_⟩
    rw [e2, e1]
    dsimp only
    simp [List.countP_append, List.countP_cons, f1, f2, isFlushEv]
  · obtain ⟨d1, e1, -, -, f1, -⟩ :=
      attemptLoop_evs_delta cfg env none cfg.maxAttempts 1 _
    obtain ⟨d2, e2, -, -, f2⟩ := refineLoop_evs_delta cfg env cfg.maxRefines 1 _
    refine ⟨_, rfl, ?_⟩
    rw [e2, e1]
    dsimp only
    simp [List.countP_append, List.countP_cons, f1, f2, isFlushEv]

/-- Witness for the amended C9 at a concretely exhausted scenario. -/
theorem flush_once_on_repair_witness :
    ∃ pre, (processScenario (Cfg.mk 1 0 false) envAllFailW scW [] []).2.evs =
        pre ++ [Event.flushLog (logName scW)] ∧
      pre.countP isFlushEv = 0 :=
  flush_once_on_repair (Cfg.mk 1 0 false) envAllFailW scW [] [] rfl rfl

/-- C9 counterexample: a scenario skipped for checkout failure is a
terminal outcome whose trace contains no log flush at all, contradicting
the claim that the buffer is flushed exactly once for every terminal
outcome including the skip cases. -/
theorem flush_missing_on_skip_counterexample :
    (processScenario (Cfg.mk 3 10 false) envCheckoutFailW scW [] []).1 =
        Outcome.skippedCheckoutError ∧
      (processScenario (Cfg.mk 3 10 false) envCheckoutFailW scW
          [] []).2.evs.countP isFlushEv = 0 := by
  decide

